import Mathlib

/-!
# Glk date and time functions of Gargoyle (`garglk/cgdate.c`)

A shallow embedding of the conversion engine of `cgdate.c`: the split of a Unix
timestamp into the two words of a `glktimeval_t`, the microsecond normalisation
done before a `glkdate_t` is handed to the host calendar routines, and the
floor division behind "simple" times.

Conventions of the embedding.

* Every C integer is an `Int`; a conversion to a narrower or differently signed
  type is written out as a two's-complement reduction (`to_glsi32`, `to_glui32`,
  `to_int64`, `to_time_t`).  Arithmetic on `int` fields is reduced the same way.
* `sizeof(time_t)` is a parameter (`sz`, in bytes): 8 on a host with 64-bit
  time, 4 on a host with 32-bit time.
* The host routines `gettimeofday`, `gmtime_r`, `localtime_r`, `timegm` and
  `mktime` are fields of a `Host` record, so every statement holds for whatever
  the host returns.
* A division by zero is undefined in C; functions that divide return an
  `Option`, and `none` stands for having reached a division by zero.
* `gli_strict_warning` only emits a diagnostic and does not influence any
  returned value; it is left out.
-/

namespace Cgdate

/-! ## Machine integers -/

/-- Conversion to a signed 32-bit type (`int`, `glsi32`): two's-complement
reduction modulo `2^32`. -/
def to_glsi32 (v : Int) : Int := (v + 2147483648) % 4294967296 - 2147483648

/-- Conversion to the unsigned 32-bit type `glui32`: reduction modulo `2^32`. -/
def to_glui32 (v : Int) : Int := v % 4294967296

/-- Conversion to `int64_t`: two's-complement reduction modulo `2^64`. -/
def to_int64 (v : Int) : Int :=
  (v + 9223372036854775808) % 18446744073709551616 - 9223372036854775808

/-- Conversion to `time_t` on a host where `sizeof(time_t)` is `sz` bytes. -/
def to_time_t (sz : Nat) (v : Int) : Int :=
  if sz ≤ 4 then to_glsi32 v else to_int64 v

/-- The values of a signed 32-bit integer. -/
def is_glsi32 (v : Int) : Prop := -2147483648 ≤ v ∧ v ≤ 2147483647

/-- The values of an unsigned 32-bit integer. -/
def is_glui32 (v : Int) : Prop := 0 ≤ v ∧ v ≤ 4294967295

/-- The values of a signed 64-bit integer. -/
def is_int64 (v : Int) : Prop :=
  -9223372036854775808 ≤ v ∧ v ≤ 9223372036854775807

instance (v : Int) : Decidable (is_glsi32 v) := by unfold is_glsi32; infer_instance

instance (v : Int) : Decidable (is_glui32 v) := by unfold is_glui32; infer_instance

instance (v : Int) : Decidable (is_int64 v) := by unfold is_int64; infer_instance

/-! ## Data model -/

/-- Modelled from the spec: the declaration of `glktimeval_t` is in `glk.h`,
which is not among the sources.  The spec's AbsoluteTime is
`{secondsHigh: int32, secondsLow: uint32, microseconds: int32}`. -/
structure glktimeval_t where
  high_sec : Int
  low_sec : Int
  microsec : Int
deriving DecidableEq

/-- Modelled from the spec: the declaration of `glkdate_t` is in `glk.h`,
which is not among the sources.  The spec's CalendarDate has eight `int32`
fields. -/
structure glkdate_t where
  year : Int
  month : Int
  day : Int
  weekday : Int
  hour : Int
  minute : Int
  second : Int
  microsec : Int
deriving DecidableEq

/-- The POSIX `struct tm` (from the host's `time.h`): nine `int` fields. -/
structure struct_tm where
  tm_sec : Int
  tm_min : Int
  tm_hour : Int
  tm_mday : Int
  tm_mon : Int
  tm_year : Int
  tm_wday : Int
  tm_yday : Int
  tm_isdst : Int
deriving DecidableEq

/-- The POSIX `struct timeval` filled in by `gettimeofday`. -/
structure struct_timeval where
  tv_sec : Int
  tv_usec : Int
deriving DecidableEq

/-- The host: the width of `time_t` and the library routines `cgdate.c` calls.
`gettimeofday` gives its return code (non-zero on failure) and the `timeval`
it filled in. -/
structure Host where
  sizeof_time_t : Nat
  gettimeofday : Int × struct_timeval
  gmtime_r : Int → struct_tm
  localtime_r : Int → struct_tm
  timegm : struct_tm → Int
  mktime : struct_tm → Int

/-! ## The functions of `cgdate.c` -/

/-- Copy a POSIX tm structure to a glkdate (`gli_date_from_tm`).  The field
`microsec` of `date` is not assigned. -/
def gli_date_from_tm (date : glkdate_t) (tm : struct_tm) : glkdate_t :=
  { date with
    year := to_glsi32 (1900 + tm.tm_year)
    month := to_glsi32 (1 + tm.tm_mon)
    day := tm.tm_mday
    weekday := tm.tm_wday
    hour := tm.tm_hour
    minute := tm.tm_min
    second := tm.tm_sec }

/-- Copy a glkdate to a POSIX tm structure (`gli_date_to_tm`); the result is
the tm structure and the normalized number of microseconds.

`memset(tm, 0, sizeof(tm))` clears `sizeof(struct tm *)` bytes, that is the
leading `tm_sec` (and `tm_min`), which the following lines assign anyway; the
fields the function does not assign, `tm_yday` and `tm_isdst`, keep what the
caller's structure held. -/
def gli_date_to_tm (date : glkdate_t) (tm : struct_tm) : struct_tm × Int :=
  let tm : struct_tm :=
    { tm with
      tm_year := to_glsi32 (date.year - 1900)
      tm_mon := to_glsi32 (date.month - 1)
      tm_mday := date.day
      tm_wday := date.weekday
      tm_hour := date.hour
      tm_min := date.minute
      tm_sec := date.second }
  let microsec := date.microsec
  if microsec ≥ 1000000 then
    ({ tm with tm_sec := to_glsi32 (tm.tm_sec + Int.tdiv microsec 1000000) },
      Int.tmod microsec 1000000)
  else if microsec < 0 then
    let microsec := to_glsi32 (-1 - microsec)
    ({ tm with tm_sec := to_glsi32 (tm.tm_sec - (1 + Int.tdiv microsec 1000000)) },
      to_glsi32 (999999 - Int.tmod microsec 1000000))
  else
    (tm, microsec)

/-- Convert a Unix timestamp, along with a microseconds value, to a glktimeval
(`gli_timestamp_to_time`).  All three fields of `*time` are assigned. -/
def gli_timestamp_to_time (sz : Nat) (timestamp : Int) (microsec : Int) : glktimeval_t :=
  if sz ≤ 4 then
    { high_sec := if timestamp ≥ 0 then 0 else -1
      low_sec := to_glui32 timestamp
      microsec := microsec }
  else
    { high_sec := to_glsi32 (Int.land (Int.shiftRight (to_int64 timestamp) 32) 0xFFFFFFFF)
      low_sec := to_glui32 (Int.land timestamp 0xFFFFFFFF)
      microsec := microsec }

/-- Divide a Unix timestamp by a (positive) value (`gli_simplify_time`).  The
quotient, a `time_t`, is converted to the `glsi32` return type.  `none` is a
division by zero. -/
def gli_simplify_time (sz : Nat) (timestamp : Int) (factor : Int) : Option Int :=
  let f := to_time_t sz factor
  if f = 0 then none
  else if timestamp ≥ 0 then
    some (to_glsi32 (to_time_t sz (Int.tdiv timestamp f)))
  else
    some (to_glsi32 (to_time_t sz
      (-1 - to_time_t sz (Int.tdiv (to_time_t sz (to_time_t sz (-1) - timestamp)) f))))

/-- Read the system clock into a glktimeval (`glk_current_time`).  `tv_usec`
is converted to the `glsi32` parameter of `gli_timestamp_to_time`. -/
def glk_current_time (h : Host) : glktimeval_t :=
  let tv := h.gettimeofday.2
  if h.gettimeofday.1 ≠ 0 then
    gli_timestamp_to_time h.sizeof_time_t 0 0
  else
    gli_timestamp_to_time h.sizeof_time_t tv.tv_sec (to_glsi32 tv.tv_usec)

/-- Read the system clock and divide by `factor` (`glk_current_simple_time`). -/
def glk_current_simple_time (h : Host) (factor : Int) : Option Int :=
  let tv := h.gettimeofday.2
  if factor = 0 then some 0
  else if h.gettimeofday.1 ≠ 0 then some 0
  else gli_simplify_time h.sizeof_time_t tv.tv_sec factor

/-- The timestamp that `glk_time_to_date_utc` and `glk_time_to_date_local`
rebuild from a glktimeval before calling the host:
`timestamp = time->low_sec; if (sizeof(timestamp) > 4) timestamp +=
((int64_t)time->high_sec << 32);`. -/
def glk_time_to_date_timestamp (sz : Nat) (time : glktimeval_t) : Int :=
  let timestamp := to_time_t sz time.low_sec
  if sz > 4 then
    to_time_t sz (timestamp + to_int64 (to_int64 time.high_sec <<< (32 : Int)))
  else
    timestamp

/-- Convert a glktimeval to a glkdate in UTC (`glk_time_to_date_utc`). -/
def glk_time_to_date_utc (h : Host) (time : glktimeval_t) (date : glkdate_t) : glkdate_t :=
  let timestamp := glk_time_to_date_timestamp h.sizeof_time_t time
  let tm := h.gmtime_r timestamp
  { gli_date_from_tm date tm with microsec := time.microsec }

/-- Convert a glktimeval to a glkdate in local time (`glk_time_to_date_local`). -/
def glk_time_to_date_local (h : Host) (time : glktimeval_t) (date : glkdate_t) : glkdate_t :=
  let timestamp := glk_time_to_date_timestamp h.sizeof_time_t time
  let tm := h.localtime_r timestamp
  { gli_date_from_tm date tm with microsec := time.microsec }

/-- The timestamp that `glk_simple_time_to_date_utc` and
`glk_simple_time_to_date_local` hand to the host:
`time_t timestamp = (time_t)time * factor;`. -/
def glk_simple_time_timestamp (sz : Nat) (time : Int) (factor : Int) : Int :=
  to_time_t sz (to_time_t sz time * factor)

/-- Convert a simple time to a glkdate in UTC (`glk_simple_time_to_date_utc`). -/
def glk_simple_time_to_date_utc (h : Host) (time : Int) (factor : Int)
    (date : glkdate_t) : glkdate_t :=
  let timestamp := glk_simple_time_timestamp h.sizeof_time_t time factor
  let tm := h.gmtime_r timestamp
  { gli_date_from_tm date tm with microsec := 0 }

/-- Convert a simple time to a glkdate in local time
(`glk_simple_time_to_date_local`). -/
def glk_simple_time_to_date_local (h : Host) (time : Int) (factor : Int)
    (date : glkdate_t) : glkdate_t :=
  let timestamp := glk_simple_time_timestamp h.sizeof_time_t time factor
  let tm := h.localtime_r timestamp
  { gli_date_from_tm date tm with microsec := 0 }

/-- Convert a glkdate in UTC to a glktimeval (`glk_date_to_time_utc`).  `tm` is
the content of the local `struct tm` on entry. -/
def glk_date_to_time_utc (h : Host) (date : glkdate_t) (tm : struct_tm) : glktimeval_t :=
  let r := gli_date_to_tm date tm
  let microsec := r.2
  let tm : struct_tm := { r.1 with tm_isdst := 0 }
  let timestamp := h.timegm tm
  gli_timestamp_to_time h.sizeof_time_t timestamp microsec

/-- Convert a glkdate in local time to a glktimeval (`glk_date_to_time_local`).
`tm` is the content of the local `struct tm` on entry. -/
def glk_date_to_time_local (h : Host) (date : glkdate_t) (tm : struct_tm) : glktimeval_t :=
  let r := gli_date_to_tm date tm
  let microsec := r.2
  let tm : struct_tm := { r.1 with tm_isdst := -1 }
  let timestamp := h.mktime tm
  gli_timestamp_to_time h.sizeof_time_t timestamp microsec

/-- Convert a glkdate in UTC to a simple time (`glk_date_to_simple_time_utc`).
`tm` is the content of the local `struct tm` on entry. -/
def glk_date_to_simple_time_utc (h : Host) (date : glkdate_t) (factor : Int)
    (tm : struct_tm) : Option Int :=
  if factor = 0 then some 0
  else
    let tm : struct_tm := { (gli_date_to_tm date tm).1 with tm_isdst := 0 }
    let timestamp := h.timegm tm
    gli_simplify_time h.sizeof_time_t timestamp factor

/-- Convert a glkdate in local time to a simple time
(`glk_date_to_simple_time_local`).  `tm` is the content of the local
`struct tm` on entry. -/
def glk_date_to_simple_time_local (h : Host) (date : glkdate_t) (factor : Int)
    (tm : struct_tm) : Option Int :=
  if factor = 0 then some 0
  else
    let tm : struct_tm := { (gli_date_to_tm date tm).1 with tm_isdst := -1 }
    let timestamp := h.mktime tm
    gli_simplify_time h.sizeof_time_t timestamp factor

/-! ## Vocabulary of the statements -/

/-- Two tm structures that name the same calendar second: equal `tm_year`,
`tm_mon`, `tm_mday`, `tm_hour`, `tm_min` and `tm_sec`. -/
def tm_same_calendar (a b : struct_tm) : Prop :=
  a.tm_year = b.tm_year ∧ a.tm_mon = b.tm_mon ∧ a.tm_mday = b.tm_mday ∧
  a.tm_hour = b.tm_hour ∧ a.tm_min = b.tm_min ∧ a.tm_sec = b.tm_sec

instance (a b : struct_tm) : Decidable (tm_same_calendar a b) := by
  unfold tm_same_calendar; infer_instance

/-- Two glkdates with the same year, month, day, hour, minute, second and
microsecond (every field but the weekday). -/
def date_same_but_weekday (a b : glkdate_t) : Prop :=
  a.year = b.year ∧ a.month = b.month ∧ a.day = b.day ∧ a.hour = b.hour ∧
  a.minute = b.minute ∧ a.second = b.second ∧ a.microsec = b.microsec

instance (a b : glkdate_t) : Decidable (date_same_but_weekday a b) := by
  unfold date_same_but_weekday; infer_instance

/-- A host with 64-bit time whose calendar routines are those of UTC on the
first minute of 1 January 1970 (a Thursday): second `t` of the epoch is
`1970-01-01 00:00:t`.  Used to instantiate the statements. -/
def epoch_minute_host : Host :=
  { sizeof_time_t := 8
    gettimeofday := (0, ⟨0, 0⟩)
    gmtime_r := fun t => ⟨t, 0, 0, 1, 0, 70, 4, 0, 0⟩
    localtime_r := fun t => ⟨t, 0, 0, 1, 0, 70, 4, 0, 0⟩
    timegm := fun tm => tm.tm_sec
    mktime := fun tm => tm.tm_sec }

/-- A tm structure with every field zero. -/
def tm_zero : struct_tm := ⟨0, 0, 0, 0, 0, 0, 0, 0, 0⟩

/-- The tm structures whose `1900 + tm_year` and `1 + tm_mon` are values of a
signed 32-bit integer: `tm_year` and `tm_mon` are `int` values with
`tm_year <= INT_MAX - 1900` and `tm_mon <= INT_MAX - 1`. -/
def tm_offsets_fit (tm : struct_tm) : Prop :=
  (-2147483648 ≤ tm.tm_year ∧ tm.tm_year ≤ 2147481747) ∧
  (-2147483648 ≤ tm.tm_mon ∧ tm.tm_mon ≤ 2147483646)

instance (tm : struct_tm) : Decidable (tm_offsets_fit tm) := by
  unfold tm_offsets_fit; infer_instance

/-- A host with 64-bit time that knows the last second whose year still has a
`tm_year` in `int`: second `67768036191676799` is Wednesday
`2147485547-12-31 23:59:59` UTC, with `tm_year = INT_MAX`.  Every other second
is answered with the record of the epoch. -/
def year_limit_host : Host :=
  { sizeof_time_t := 8
    gettimeofday := (0, ⟨0, 0⟩)
    gmtime_r := fun t =>
      if t = 67768036191676799 then ⟨59, 59, 23, 31, 11, 2147483647, 3, 364, 0⟩
      else ⟨0, 0, 0, 1, 0, 70, 4, 0, 0⟩
    localtime_r := fun t =>
      if t = 67768036191676799 then ⟨59, 59, 23, 31, 11, 2147483647, 3, 364, 0⟩
      else ⟨0, 0, 0, 1, 0, 70, 4, 0, 0⟩
    timegm := fun _ => 0
    mktime := fun _ => 0 }

/-! ## Arithmetic facts used below -/

/-- Masking with `0xFFFFFFFF` keeps the value modulo `2^32`. -/
theorem land_mask32 (x : Int) : Int.land x 4294967295 = x % 4294967296 := by
  cases x with
  | ofNat m =>
    show ((m &&& 4294967295 : Nat) : Int) = (m : Int) % 4294967296
    have h := Nat.and_pow_two_sub_one_eq_mod m 32
    norm_num at h
    rw [h]; rfl
  | negSucc m =>
    show ((Nat.ldiff 4294967295 m : Nat) : Int) = Int.negSucc m % 4294967296
    rw [Int.negSucc_emod m (by decide)]
    have h : Nat.ldiff 4294967295 m = 4294967295 - m % 4294967296 := by
      apply Nat.eq_of_testBit_eq
      intro i
      rw [Nat.testBit_ldiff]
      have h1 := Nat.testBit_two_pow_sub_succ (Nat.mod_lt m (by decide : 0 < 2 ^ 32)) i
      have h2 := Nat.testBit_two_pow_sub_one 32 i
      have e : 4294967295 - m % 4294967296 = 2 ^ 32 - (m % 2 ^ 32 + 1) := by
        norm_num; omega
      have e2 : (4294967295 : Nat) = 2 ^ 32 - 1 := by norm_num
      rw [e, h1, e2, h2]
      by_cases hi : i < 32
      · have h3 := Nat.testBit_mod_two_pow m 32 i
        simp only [hi, decide_True, Bool.true_and] at h3 ⊢
        rw [h3]
      · simp [hi]
    rw [h]
    omega

/-- An arithmetic right shift by 32 is the floor division by `2^32`. -/
theorem shiftRight32 (x : Int) : Int.shiftRight x 32 = x / 4294967296 := by
  have h := Int.shiftRight_eq_div_pow x 32
  simpa using h

/-- A left shift by 32 is the multiplication by `2^32`. -/
theorem shiftLeft32 (x : Int) : x <<< (32 : Int) = x * 4294967296 := by
  have h := Int.shiftLeft_eq_mul_pow x 32
  simpa using h

/-- On a host with 64-bit time, `to_time_t` is `to_int64`. -/
theorem to_time_t_eight (v : Int) : to_time_t 8 v = to_int64 v := by
  simp [to_time_t]

/-- A value of `int64_t` is unchanged by the conversion to `int64_t`. -/
theorem to_int64_id {v : Int} (h : is_int64 v) : to_int64 v = v := by
  unfold is_int64 at h
  unfold to_int64
  omega

/-- A value of `glsi32` is unchanged by the conversion to `glsi32`. -/
theorem to_glsi32_id {v : Int} (h : is_glsi32 v) : to_glsi32 v = v := by
  unfold is_glsi32 at h
  unfold to_glsi32
  omega

/-- What `gli_simplify_time` returns on a host with 64-bit time, in terms of
the floor division. -/
theorem gli_simplify_time_eight (x f : Int) (hx : is_int64 x) (h1 : 1 ≤ f)
    (h2 : f ≤ 4294967295) :
    gli_simplify_time 8 x f = some (to_glsi32 (x / f)) := by
  unfold is_int64 at hx
  have hf : to_int64 f = f := to_int64_id ⟨by omega, by omega⟩
  have hf0 : f ≠ 0 := by omega
  unfold gli_simplify_time
  simp only [to_time_t_eight, hf, hf0, if_false]
  by_cases hx0 : x ≥ 0
  · have hq0 : 0 ≤ x / f := Int.ediv_nonneg hx0 (by omega)
    have hq1 : x / f ≤ x := Int.ediv_le_self _ hx0
    rw [if_pos hx0, Int.tdiv_eq_ediv hx0 (by omega), to_int64_id ⟨by omega, by omega⟩]
  · have hm1 : to_int64 (-1) = -1 := to_int64_id ⟨by omega, by omega⟩
    have hy0 : 0 ≤ -1 - x := by omega
    have hq0 : 0 ≤ (-1 - x) / f := Int.ediv_nonneg hy0 (by omega)
    have hq1 : (-1 - x) / f ≤ -1 - x := Int.ediv_le_self _ hy0
    rw [if_neg hx0, hm1, to_int64_id (v := -1 - x) ⟨by omega, by omega⟩,
      Int.tdiv_eq_ediv hy0 (by omega), to_int64_id (v := (-1 - x) / f) ⟨by omega, by omega⟩,
      to_int64_id (v := -1 - (-1 - x) / f) ⟨by omega, by omega⟩]
    congr 2
    -- floor division: -1 - (-1 - x) / f = x / f
    have e1 := Int.emod_add_ediv x f
    have e2 := Int.emod_add_ediv (-1 - x) f
    have r1 := Int.emod_nonneg x hf0
    have r2 := Int.emod_lt_of_pos x (show 0 < f by omega)
    have r3 := Int.emod_nonneg (-1 - x) hf0
    have r4 := Int.emod_lt_of_pos (-1 - x) (show 0 < f by omega)
    have key : f * (-1 - (-1 - x) / f - x / f) = x % f + (-1 - x) % f + 1 - f := by
      linear_combination -e1 - e2
    have hd : -1 - (-1 - x) / f - x / f = 0 := by
      by_contra hne
      rcases lt_or_gt_of_ne hne with hlt | hgt
      · have : f * (-1 - (-1 - x) / f - x / f) ≤ f * (-1) :=
          Int.mul_le_mul_of_nonneg_left (by omega) (by omega)
        omega
      · have : f * 1 ≤ f * (-1 - (-1 - x) / f - x / f) :=
          Int.mul_le_mul_of_nonneg_left (by omega) (by omega)
        omega
    omega

/-- The tm structure and microseconds built by `gli_date_to_tm`, with the
truncating operators rewritten as floor operators on their nonnegative
operands. -/
theorem gli_date_to_tm_sec (date : glkdate_t) (tm : struct_tm)
    (hU : is_glsi32 date.microsec) :
    (gli_date_to_tm date tm).1.tm_sec
        = (if date.microsec ≥ 1000000 then
            to_glsi32 (date.second + date.microsec / 1000000)
          else if date.microsec < 0 then
            to_glsi32 (date.second - (1 + (-1 - date.microsec) / 1000000))
          else date.second) ∧
    (gli_date_to_tm date tm).2
        = (if date.microsec ≥ 1000000 then date.microsec % 1000000
          else if date.microsec < 0 then 999999 - (-1 - date.microsec) % 1000000
          else date.microsec) := by
  unfold is_glsi32 at hU
  unfold gli_date_to_tm
  by_cases h1 : date.microsec ≥ 1000000
  · simp only [h1, if_true]
    rw [Int.tdiv_eq_ediv (by omega) (by decide), Int.tmod_eq_emod (by omega) (by decide)]
    exact ⟨rfl, rfl⟩
  · by_cases h2 : date.microsec < 0
    · have hM : to_glsi32 (-1 - date.microsec) = -1 - date.microsec :=
        to_glsi32_id ⟨by omega, by omega⟩
      simp only [h1, h2, if_true, if_false, hM]
      rw [Int.tdiv_eq_ediv (by omega) (by decide), Int.tmod_eq_emod (by omega) (by decide)]
      refine ⟨rfl, ?_⟩
      apply to_glsi32_id
      unfold is_glsi32
      omega
    · simp only [h1, h2, if_false]
      exact ⟨trivial, trivial⟩

/-- The glktimeval `gli_timestamp_to_time` builds on a host with 64-bit time:
the floor quotient and the remainder of the timestamp by `2^32`. -/
theorem gli_timestamp_to_time_eight (x us : Int) (hx : is_int64 x) :
    gli_timestamp_to_time 8 x us = ⟨x / 4294967296, x % 4294967296, us⟩ := by
  have h8 : ¬ (8 ≤ 4) := by decide
  have hm : (0xFFFFFFFF : Int) = 4294967295 := by norm_num
  unfold gli_timestamp_to_time
  rw [if_neg h8, to_int64_id hx, hm, land_mask32, land_mask32, shiftRight32]
  unfold is_int64 at hx
  unfold to_glsi32 to_glui32
  congr 1 <;> omega

/-- The timestamp `glk_time_to_date_utc` rebuilds on a host with 64-bit time
from a high word in `glsi32` and a low word in `glui32`. -/
theorem glk_time_to_date_timestamp_eight (time : glktimeval_t)
    (hh : is_glsi32 time.high_sec) (hl : is_glui32 time.low_sec) :
    glk_time_to_date_timestamp 8 time = time.low_sec + time.high_sec * 4294967296 := by
  have h8 : (8 > 4) := by decide
  unfold is_glsi32 at hh
  unfold is_glui32 at hl
  unfold glk_time_to_date_timestamp
  simp only [if_pos h8, to_time_t_eight]
  rw [to_int64_id (v := time.low_sec) ⟨by omega, by omega⟩,
    to_int64_id (v := time.high_sec) ⟨by omega, by omega⟩, shiftLeft32,
    to_int64_id (v := time.high_sec * 4294967296) ⟨by omega, by omega⟩]
  apply to_int64_id
  unfold is_int64
  omega

/-- Splitting a 64-bit timestamp and rejoining it gives the timestamp back. -/
theorem timestamp_split_join (x us : Int) (hx : is_int64 x) :
    glk_time_to_date_timestamp 8 (gli_timestamp_to_time 8 x us) = x := by
  rw [gli_timestamp_to_time_eight x us hx]
  unfold is_int64 at hx
  rw [glk_time_to_date_timestamp_eight]
  · show x % 4294967296 + x / 4294967296 * 4294967296 = x
    omega
  · show is_glsi32 (x / 4294967296)
    unfold is_glsi32
    omega
  · show is_glui32 (x % 4294967296)
    unfold is_glui32
    omega

/-- The microseconds passed to `gli_timestamp_to_time` are stored unchanged,
whatever the width of `time_t`. -/
theorem gli_timestamp_to_time_microsec (sz : Nat) (ts us : Int) :
    (gli_timestamp_to_time sz ts us).microsec = us := by
  unfold gli_timestamp_to_time
  split <;> rfl

/-- The microseconds returned by `gli_date_to_tm` lie in `0..999_999`. -/
theorem gli_date_to_tm_microsec_range (date : glkdate_t) (tm : struct_tm)
    (hU : is_glsi32 date.microsec) :
    0 ≤ (gli_date_to_tm date tm).2 ∧ (gli_date_to_tm date tm).2 < 1000000 := by
  rw [(gli_date_to_tm_sec date tm hU).2]
  unfold is_glsi32 at hU
  by_cases h1 : date.microsec ≥ 1000000
  · rw [if_pos h1]
    omega
  · by_cases h2 : date.microsec < 0
    · rw [if_neg h1, if_pos h2]
      omega
    · rw [if_neg h1, if_neg h2]
      omega

/-- The timestamp `glk_simple_time_to_date_utc` computes on a host with 64-bit
time is the product of the simple time and the factor. -/
theorem glk_simple_time_timestamp_eight (s f : Int) (hs : is_glsi32 s) (hf : is_glui32 f) :
    glk_simple_time_timestamp 8 s f = s * f := by
  unfold is_glsi32 at hs
  unfold is_glui32 at hf
  have b1 : -2147483648 * f ≤ s * f := Int.mul_le_mul_of_nonneg_right hs.1 hf.1
  have b2 : s * f ≤ 2147483647 * f := Int.mul_le_mul_of_nonneg_right hs.2 hf.1
  unfold glk_simple_time_timestamp
  rw [to_time_t_eight, to_time_t_eight, to_int64_id (v := s) ⟨by omega, by omega⟩]
  apply to_int64_id
  unfold is_int64
  omega

/-- The fields of the tm structure built by `gli_date_to_tm` other than
`tm_sec`: six are copied from the date, two are left as they were. -/
theorem gli_date_to_tm_fields (date : glkdate_t) (tm : struct_tm) :
    (gli_date_to_tm date tm).1.tm_year = to_glsi32 (date.year - 1900) ∧
    (gli_date_to_tm date tm).1.tm_mon = to_glsi32 (date.month - 1) ∧
    (gli_date_to_tm date tm).1.tm_mday = date.day ∧
    (gli_date_to_tm date tm).1.tm_wday = date.weekday ∧
    (gli_date_to_tm date tm).1.tm_hour = date.hour ∧
    (gli_date_to_tm date tm).1.tm_min = date.minute ∧
    (gli_date_to_tm date tm).1.tm_yday = tm.tm_yday ∧
    (gli_date_to_tm date tm).1.tm_isdst = tm.tm_isdst := by
  unfold gli_date_to_tm
  by_cases h1 : date.microsec ≥ 1000000
  · simp only [if_pos h1, and_self]
  · by_cases h2 : date.microsec < 0
    · simp only [if_neg h1, if_pos h2, and_self]
    · simp only [if_neg h1, if_neg h2, and_self]

/-- The timestamp `glk_time_to_date_utc` rebuilds on a host with 32-bit time:
the low word converted to the signed `time_t`. -/
theorem glk_time_to_date_timestamp_four (time : glktimeval_t) :
    glk_time_to_date_timestamp 4 time = to_glsi32 time.low_sec := by
  have h4 : ¬ (4 > 4) := by decide
  have h4le : (4 : Nat) ≤ 4 := by decide
  unfold glk_time_to_date_timestamp to_time_t
  simp only [if_neg h4, if_pos h4le]

/-- The glktimeval of timestamp `0` with `0` microseconds is all zero, whatever
the width of `time_t`. -/
theorem gli_timestamp_to_time_zero (sz : Nat) :
    gli_timestamp_to_time sz 0 0 = ⟨0, 0, 0⟩ := by
  have z64 : to_int64 0 = 0 := by decide
  have hm : (0xFFFFFFFF : Int) = 4294967295 := by norm_num
  have zs : to_glsi32 (0 % 4294967296) = 0 := by decide
  have zu : to_glui32 (0 % 4294967296) = 0 := by decide
  have zu0 : to_glui32 0 = 0 := by decide
  have zd : (0 : Int) / 4294967296 = 0 := by decide
  have zge : (0 : Int) ≥ 0 := by decide
  unfold gli_timestamp_to_time
  by_cases hsz : sz ≤ 4
  · rw [if_pos hsz, if_pos zge, zu0]
  · rw [if_neg hsz, z64, hm, land_mask32, shiftRight32, zd, land_mask32, zs, zu]

/-- The product of a signed 32-bit value and an unsigned 32-bit value is a
signed 64-bit value. -/
theorem mul_is_int64 (s f : Int) (hs : is_glsi32 s) (hf : is_glui32 f) :
    is_int64 (s * f) := by
  unfold is_glsi32 at hs
  unfold is_glui32 at hf
  have b1 : -2147483648 * f ≤ s * f := Int.mul_le_mul_of_nonneg_right hs.1 hf.1
  have b2 : s * f ≤ 2147483647 * f := Int.mul_le_mul_of_nonneg_right hs.2 hf.1
  unfold is_int64
  omega

/-! ## C1: floor division of `gli_simplify_time` -/

/-- C1, as stated, fails: with `epochSeconds = 2^32` and `factor = 1` the floor
quotient is `2^32`, which no `glsi32` holds; the function returns `0`. -/
theorem C1_counterexample :
    is_int64 4294967296 ∧ (1 : Int) ≤ 1 ∧ (1 : Int) ≤ 4294967295 ∧
    Int.fdiv 4294967296 1 = 4294967296 ∧
    gli_simplify_time 8 4294967296 1 = some 0 ∧
    gli_simplify_time 8 4294967296 1 ≠ some (Int.fdiv 4294967296 1) := by
  decide

/-- C1 (amended): on a host with 64-bit time, for every signed 64-bit
`epochSeconds` and every factor in `1..2^32-1`, `gli_simplify_time` returns
`floor(epochSeconds / factor)` converted to its signed 32-bit return type
(reduced modulo `2^32`); whenever the floor quotient fits in a signed 32-bit
integer the result is the floor quotient itself. -/
theorem C1_simplify_floor (x f : Int) (hx : is_int64 x) (h1 : 1 ≤ f) (h2 : f ≤ 4294967295) :
    gli_simplify_time 8 x f = some (to_glsi32 (Int.fdiv x f)) ∧
    (is_glsi32 (Int.fdiv x f) → gli_simplify_time 8 x f = some (Int.fdiv x f)) := by
  have hfd : Int.fdiv x f = x / f := Int.fdiv_eq_ediv x (by omega)
  rw [hfd, gli_simplify_time_eight x f hx h1 h2]
  refine ⟨rfl, fun hfit => ?_⟩
  rw [to_glsi32_id hfit]

/-- C1 at the four inputs of the spec: `(-1, 86400)` gives `-1`,
`(-86401, 86400)` gives `-2`, `(86399, 86400)` gives `0` and `(86400, 86400)`
gives `1`. -/
theorem C1_simplify_floor_witness :
    (is_int64 (-1) ∧ is_int64 (-86401) ∧ is_int64 86399 ∧ is_int64 86400) ∧
    gli_simplify_time 8 (-1) 86400 = some (-1) ∧
    gli_simplify_time 8 (-86401) 86400 = some (-2) ∧
    gli_simplify_time 8 86399 86400 = some 0 ∧
    gli_simplify_time 8 86400 86400 = some 1 :=
  ⟨by decide,
   (C1_simplify_floor (-1) 86400 (by decide) (by decide) (by decide)).2 (by decide),
   (C1_simplify_floor (-86401) 86400 (by decide) (by decide) (by decide)).2 (by decide),
   (C1_simplify_floor 86399 86400 (by decide) (by decide) (by decide)).2 (by decide),
   (C1_simplify_floor 86400 86400 (by decide) (by decide) (by decide)).2 (by decide)⟩

/-! ## C2: the microsecond overflow is folded into the seconds -/

/-- C2: for every second `S` at least 2148 away from the `int32` limits and
every signed 32-bit microsecond `U`, the `tm_sec` value `S'` and the returned
microsecond `U'` of `gli_date_to_tm` satisfy
`S' * 1_000_000 + U' = S * 1_000_000 + U`, and `S' = S + floor(U / 1_000_000)`. -/
theorem C2_microsec_folded (date : glkdate_t) (tm : struct_tm)
    (hS : -2147483648 + 2148 ≤ date.second ∧ date.second ≤ 2147483647 - 2148)
    (hU : is_glsi32 date.microsec) :
    (gli_date_to_tm date tm).1.tm_sec * 1000000 + (gli_date_to_tm date tm).2
      = date.second * 1000000 + date.microsec ∧
    (gli_date_to_tm date tm).1.tm_sec = date.second + Int.fdiv date.microsec 1000000 := by
  obtain ⟨e1, e2⟩ := gli_date_to_tm_sec date tm hU
  rw [e1, e2, Int.fdiv_eq_ediv _ (by decide)]
  unfold is_glsi32 at hU
  unfold to_glsi32
  by_cases h1 : date.microsec ≥ 1000000
  · simp only [h1, if_true]
    omega
  · by_cases h2 : date.microsec < 0
    · simp only [h1, h2, if_true, if_false]
      omega
    · rw [if_neg h1, if_neg h2, if_neg h1, if_neg h2]
      omega

/-- C2 at the two inputs of the spec: `(S=0, U=1_500_000)` gives
`(1, 500_000)` and `(S=10, U=-1)` gives `(9, 999_999)`. -/
theorem C2_microsec_folded_witness :
    ((gli_date_to_tm ⟨2000, 1, 1, 0, 0, 0, 0, 1500000⟩ ⟨0, 0, 0, 0, 0, 0, 0, 0, 0⟩).1.tm_sec = 1 ∧
     (gli_date_to_tm ⟨2000, 1, 1, 0, 0, 0, 0, 1500000⟩ ⟨0, 0, 0, 0, 0, 0, 0, 0, 0⟩).2 = 500000) ∧
    ((gli_date_to_tm ⟨2000, 1, 1, 0, 0, 0, 10, -1⟩ ⟨0, 0, 0, 0, 0, 0, 0, 0, 0⟩).1.tm_sec = 9 ∧
     (gli_date_to_tm ⟨2000, 1, 1, 0, 0, 0, 10, -1⟩ ⟨0, 0, 0, 0, 0, 0, 0, 0, 0⟩).2 = 999999) := by
  have a := C2_microsec_folded ⟨2000, 1, 1, 0, 0, 0, 0, 1500000⟩ ⟨0, 0, 0, 0, 0, 0, 0, 0, 0⟩
    (by decide) (by decide)
  have b := C2_microsec_folded ⟨2000, 1, 1, 0, 0, 0, 10, -1⟩ ⟨0, 0, 0, 0, 0, 0, 0, 0, 0⟩
    (by decide) (by decide)
  have fa : Int.fdiv 1500000 1000000 = 1 := by decide
  have fb : Int.fdiv (-1) 1000000 = -1 := by decide
  simp only [fa, fb] at a b
  refine ⟨⟨a.2, ?_⟩, ⟨b.2, ?_⟩⟩
  · have := a.1
    rw [a.2] at this
    omega
  · have := b.1
    rw [b.2] at this
    omega

/-! ## C3: decoding inverts encoding on a host with 64-bit time -/

/-- C3: on a host with 64-bit time, for every signed 64-bit `x`, splitting `x`
with `gli_timestamp_to_time` and rejoining it as `low_sec + (high_sec << 32)`
yields exactly `x`; this rejoined value is what `glk_time_to_date_utc` and
`glk_time_to_date_local` pass to the host. -/
theorem C3_decode_inverts_encode (h : Host) (x us : Int) (date : glkdate_t)
    (h64 : h.sizeof_time_t = 8) (hx : is_int64 x) :
    glk_time_to_date_timestamp 8 (gli_timestamp_to_time 8 x us) = x ∧
    glk_time_to_date_utc h (gli_timestamp_to_time 8 x us) date
      = { gli_date_from_tm date (h.gmtime_r x) with microsec := us } ∧
    glk_time_to_date_local h (gli_timestamp_to_time 8 x us) date
      = { gli_date_from_tm date (h.localtime_r x) with microsec := us } := by
  have e := timestamp_split_join x us hx
  refine ⟨e, ?_, ?_⟩
  · unfold glk_time_to_date_utc
    simp only [h64, e]
    rw [gli_timestamp_to_time_eight x us hx]
  · unfold glk_time_to_date_local
    simp only [h64, e]
    rw [gli_timestamp_to_time_eight x us hx]

/-- C3 at `x = 5_000_000_000`: the split is `(1, 705032704)` and the rejoined
value is `5_000_000_000`. -/
theorem C3_decode_inverts_encode_witness :
    is_int64 5000000000 ∧
    glk_time_to_date_timestamp 8 (gli_timestamp_to_time 8 5000000000 0) = 5000000000 :=
  ⟨by decide,
   (C3_decode_inverts_encode ⟨8, (0, ⟨0, 0⟩), fun _ => ⟨0, 0, 0, 1, 0, 70, 4, 0, 0⟩,
      fun _ => ⟨0, 0, 0, 1, 0, 70, 4, 0, 0⟩, fun _ => 0, fun _ => 0⟩
      5000000000 0 ⟨1970, 1, 1, 4, 0, 0, 0, 0⟩ rfl (by decide)).1⟩

/-! ## C4: the two's-complement split of the timestamp -/

/-- C4: on a host with 64-bit time, for every signed 64-bit `x`,
`gli_timestamp_to_time` stores `low_sec = x mod 2^32` and
`high_sec = floor(x / 2^32)`, so that `x = high_sec * 2^32 + low_sec` with
`0 <= low_sec < 2^32` and `-2^31 <= high_sec < 2^31`. -/
theorem C4_split_bit_exact (x us : Int) (hx : is_int64 x) :
    (gli_timestamp_to_time 8 x us).low_sec = Int.fmod x 4294967296 ∧
    (gli_timestamp_to_time 8 x us).high_sec = Int.fdiv x 4294967296 ∧
    x = (gli_timestamp_to_time 8 x us).high_sec * 4294967296
          + (gli_timestamp_to_time 8 x us).low_sec ∧
    (0 ≤ (gli_timestamp_to_time 8 x us).low_sec ∧
      (gli_timestamp_to_time 8 x us).low_sec < 4294967296) ∧
    (-2147483648 ≤ (gli_timestamp_to_time 8 x us).high_sec ∧
      (gli_timestamp_to_time 8 x us).high_sec < 2147483648) := by
  rw [gli_timestamp_to_time_eight x us hx, Int.fdiv_eq_ediv _ (by decide),
    Int.fmod_eq_emod _ (by decide)]
  unfold is_int64 at hx
  refine ⟨rfl, rfl, ?_, ⟨?_, ?_⟩, ⟨?_, ?_⟩⟩ <;>
    simp only <;> omega

/-- C4 at `x = -1`: both words have all bits set, `high_sec = -1` and
`low_sec = 4294967295`. -/
theorem C4_split_bit_exact_witness :
    is_int64 (-1) ∧
    (gli_timestamp_to_time 8 (-1) 0).low_sec = 4294967295 ∧
    (gli_timestamp_to_time 8 (-1) 0).high_sec = -1 := by
  have a := C4_split_bit_exact (-1) 0 (by decide)
  have f1 : Int.fmod (-1) 4294967296 = 4294967295 := by decide
  have f2 : Int.fdiv (-1) 4294967296 = -1 := by decide
  rw [f1, f2] at a
  exact ⟨by decide, a.1, a.2.1⟩

/-! ## C5: the microseconds of a glktimeval built from a date are in range -/

/-- C5: for every glkdate whose microsecond is a signed 32-bit value, every
host and every width of `time_t`, `glk_date_to_time_utc` and
`glk_date_to_time_local` store a `microsec` with `0 <= microsec < 1_000_000`. -/
theorem C5_microsec_in_range (h : Host) (date : glkdate_t) (tm : struct_tm)
    (hU : is_glsi32 date.microsec) :
    (0 ≤ (glk_date_to_time_utc h date tm).microsec ∧
      (glk_date_to_time_utc h date tm).microsec < 1000000) ∧
    (0 ≤ (glk_date_to_time_local h date tm).microsec ∧
      (glk_date_to_time_local h date tm).microsec < 1000000) := by
  have r := gli_date_to_tm_microsec_range date tm hU
  unfold glk_date_to_time_utc glk_date_to_time_local
  simp only [gli_timestamp_to_time_microsec]
  exact ⟨r, r⟩

/-- C5 at `microsecond = INT32_MIN` and at `microsecond = INT32_MAX`: the
stored values are `516352` and `483647`. -/
theorem C5_microsec_in_range_witness :
    (is_glsi32 (-2147483648) ∧ is_glsi32 2147483647) ∧
    (0 ≤ (glk_date_to_time_utc epoch_minute_host
        ⟨1970, 1, 1, 4, 0, 0, 0, -2147483648⟩ tm_zero).microsec ∧
      (glk_date_to_time_utc epoch_minute_host
        ⟨1970, 1, 1, 4, 0, 0, 0, -2147483648⟩ tm_zero).microsec < 1000000) ∧
    (0 ≤ (glk_date_to_time_local epoch_minute_host
        ⟨1970, 1, 1, 4, 0, 0, 0, 2147483647⟩ tm_zero).microsec ∧
      (glk_date_to_time_local epoch_minute_host
        ⟨1970, 1, 1, 4, 0, 0, 0, 2147483647⟩ tm_zero).microsec < 1000000) :=
  ⟨by decide,
   (C5_microsec_in_range epoch_minute_host ⟨1970, 1, 1, 4, 0, 0, 0, -2147483648⟩ tm_zero
      (by decide)).1,
   (C5_microsec_in_range epoch_minute_host ⟨1970, 1, 1, 4, 0, 0, 0, 2147483647⟩ tm_zero
      (by decide)).2⟩

/-! ## C6: calendar round trip -/

/-- C6: on a host with 64-bit time, for every glkdate `D` with signed 32-bit
year and month and `0 <= microsec < 1_000_000`, in each zone: if the host
breakdown routine, applied to the timestamp the host construction routine
returns for the tm structure built from `D`, names the same calendar second as
that structure, then `glk_date_to_time_*` followed by `glk_time_to_date_*`
reproduces the year, month, day, hour, minute, second and microsecond of `D`. -/
theorem C6_calendar_round_trip (h : Host) (D date : glkdate_t) (tm : struct_tm)
    (h64 : h.sizeof_time_t = 8) (hy : is_glsi32 D.year) (hm : is_glsi32 D.month)
    (hU : 0 ≤ D.microsec ∧ D.microsec < 1000000) :
    (is_int64 (h.timegm { (gli_date_to_tm D tm).1 with tm_isdst := 0 }) →
      tm_same_calendar (h.gmtime_r (h.timegm { (gli_date_to_tm D tm).1 with tm_isdst := 0 }))
        { (gli_date_to_tm D tm).1 with tm_isdst := 0 } →
      date_same_but_weekday (glk_time_to_date_utc h (glk_date_to_time_utc h D tm) date) D) ∧
    (is_int64 (h.mktime { (gli_date_to_tm D tm).1 with tm_isdst := -1 }) →
      tm_same_calendar
        (h.localtime_r (h.mktime { (gli_date_to_tm D tm).1 with tm_isdst := -1 }))
        { (gli_date_to_tm D tm).1 with tm_isdst := -1 } →
      date_same_but_weekday
        (glk_time_to_date_local h (glk_date_to_time_local h D tm) date) D) := by
  have hU32 : is_glsi32 D.microsec := ⟨by omega, by omega⟩
  obtain ⟨e1, e2⟩ := gli_date_to_tm_sec D tm hU32
  have n1 : ¬ (D.microsec ≥ 1000000) := by omega
  have n2 : ¬ (D.microsec < 0) := by omega
  rw [if_neg n1, if_neg n2] at e1 e2
  have ey : to_glsi32 (1900 + to_glsi32 (D.year - 1900)) = D.year := by
    unfold is_glsi32 at hy
    unfold to_glsi32
    omega
  have em : to_glsi32 (1 + to_glsi32 (D.month - 1)) = D.month := by
    unfold is_glsi32 at hm
    unfold to_glsi32
    omega
  obtain ⟨fy, fm, fd, _, fh, fi, _, _⟩ := gli_date_to_tm_fields D tm
  constructor
  · intro hts hinv
    have e : glk_time_to_date_utc h (glk_date_to_time_utc h D tm) date =
        { gli_date_from_tm date
            (h.gmtime_r (h.timegm { (gli_date_to_tm D tm).1 with tm_isdst := 0 })) with
          microsec := (gli_date_to_tm D tm).2 } := by
      unfold glk_time_to_date_utc glk_date_to_time_utc
      simp only [h64, timestamp_split_join _ _ hts, gli_timestamp_to_time_microsec]
    rw [e]
    generalize h.gmtime_r (h.timegm { (gli_date_to_tm D tm).1 with tm_isdst := 0 }) = B
      at hinv ⊢
    obtain ⟨g1, g2, g3, g4, g5, g6⟩ := hinv
    simp only at g1 g2 g3 g4 g5 g6
    rw [fy] at g1
    rw [fm] at g2
    rw [fd] at g3
    rw [fh] at g4
    rw [fi] at g5
    rw [e1] at g6
    unfold gli_date_from_tm date_same_but_weekday
    simp only [g1, g2, g3, g4, g5, g6, e2, ey, em, and_self]
  · intro hts hinv
    have e : glk_time_to_date_local h (glk_date_to_time_local h D tm) date =
        { gli_date_from_tm date
            (h.localtime_r (h.mktime { (gli_date_to_tm D tm).1 with tm_isdst := -1 })) with
          microsec := (gli_date_to_tm D tm).2 } := by
      unfold glk_time_to_date_local glk_date_to_time_local
      simp only [h64, timestamp_split_join _ _ hts, gli_timestamp_to_time_microsec]
    rw [e]
    generalize h.localtime_r (h.mktime { (gli_date_to_tm D tm).1 with tm_isdst := -1 }) = B
      at hinv ⊢
    obtain ⟨g1, g2, g3, g4, g5, g6⟩ := hinv
    simp only at g1 g2 g3 g4 g5 g6
    rw [fy] at g1
    rw [fm] at g2
    rw [fd] at g3
    rw [fh] at g4
    rw [fi] at g5
    rw [e1] at g6
    unfold gli_date_from_tm date_same_but_weekday
    simp only [g1, g2, g3, g4, g5, g6, e2, ey, em, and_self]

/-- C6 at `1970-01-01 00:00:05.250000` on `epoch_minute_host`, in both zones;
the weekday given, `0`, is wrong and is not reproduced. -/
theorem C6_calendar_round_trip_witness :
    date_same_but_weekday
      (glk_time_to_date_utc epoch_minute_host
        (glk_date_to_time_utc epoch_minute_host ⟨1970, 1, 1, 0, 0, 0, 5, 250000⟩ tm_zero)
        ⟨0, 0, 0, 0, 0, 0, 0, 0⟩)
      ⟨1970, 1, 1, 0, 0, 0, 5, 250000⟩ ∧
    date_same_but_weekday
      (glk_time_to_date_local epoch_minute_host
        (glk_date_to_time_local epoch_minute_host ⟨1970, 1, 1, 0, 0, 0, 5, 250000⟩ tm_zero)
        ⟨0, 0, 0, 0, 0, 0, 0, 0⟩)
      ⟨1970, 1, 1, 0, 0, 0, 5, 250000⟩ :=
  ⟨(C6_calendar_round_trip epoch_minute_host ⟨1970, 1, 1, 0, 0, 0, 5, 250000⟩
      ⟨0, 0, 0, 0, 0, 0, 0, 0⟩ tm_zero rfl (by decide) (by decide) (by decide)).1
      (by decide) (by decide),
   (C6_calendar_round_trip epoch_minute_host ⟨1970, 1, 1, 0, 0, 0, 5, 250000⟩
      ⟨0, 0, 0, 0, 0, 0, 0, 0⟩ tm_zero rfl (by decide) (by decide) (by decide)).2
      (by decide) (by decide)⟩

/-! ## C7: a zero factor never divides -/

/-- C7: for every host and every glkdate, `glk_current_simple_time(0)`,
`glk_date_to_simple_time_utc(D, 0)` and `glk_date_to_simple_time_local(D, 0)`
return `0`; the division of `gli_simplify_time`, which with a zero factor
would be a division by zero for every timestamp, is not reached. -/
theorem C7_zero_factor (h : Host) (D : glkdate_t) (tm : struct_tm) :
    glk_current_simple_time h 0 = some 0 ∧
    glk_date_to_simple_time_utc h D 0 tm = some 0 ∧
    glk_date_to_simple_time_local h D 0 tm = some 0 ∧
    ∀ ts : Int, gli_simplify_time h.sizeof_time_t ts 0 = none := by
  refine ⟨?_, ?_, ?_, ?_⟩
  · unfold glk_current_simple_time
    simp only [if_true]
  · unfold glk_date_to_simple_time_utc
    simp only [if_true]
  · unfold glk_date_to_simple_time_local
    simp only [if_true]
  · intro ts
    have z : to_time_t h.sizeof_time_t 0 = 0 := by
      unfold to_time_t
      split <;> rfl
    unfold gli_simplify_time
    simp only [z, if_true]

/-! ## C8: expanding a simplified time -/

/-- C8: on a host with 64-bit time, for every signed 64-bit `x` and factor `f`
in `1..2^32-1` such that `floor(x / f)` fits in a signed 32-bit integer,
`gli_simplify_time(x, f)` returns a value `s` whose expansion `s * f`, as
computed by `glk_simple_time_to_date_*`, equals `x` if and only if `x` is a
multiple of `f`. -/
theorem C8_expand_simplify (x f : Int) (hx : is_int64 x) (h1 : 1 ≤ f) (h2 : f ≤ 4294967295)
    (hfit : is_glsi32 (Int.fdiv x f)) :
    ∃ s, gli_simplify_time 8 x f = some s ∧
      (glk_simple_time_timestamp 8 s f = x ↔ f ∣ x) := by
  have hfd : Int.fdiv x f = x / f := Int.fdiv_eq_ediv x (by omega)
  rw [hfd] at hfit
  refine ⟨x / f, ?_, ?_⟩
  · rw [gli_simplify_time_eight x f hx h1 h2, to_glsi32_id hfit]
  · rw [glk_simple_time_timestamp_eight (x / f) f hfit ⟨by omega, h2⟩]
    constructor
    · intro e
      exact Dvd.intro_left (x / f) e
    · intro hd
      exact Int.ediv_mul_cancel hd

/-- C8 at `f = 86400`: `x = -86400` is a multiple and is recovered,
`x = -86401` is not a multiple and expands to `-172800`. -/
theorem C8_expand_simplify_witness :
    (∃ s, gli_simplify_time 8 (-86400) 86400 = some s ∧
      (glk_simple_time_timestamp 8 s 86400 = -86400 ↔ (86400 : Int) ∣ -86400)) ∧
    (∃ s, gli_simplify_time 8 (-86401) 86400 = some s ∧
      (glk_simple_time_timestamp 8 s 86400 = -86401 ↔ (86400 : Int) ∣ -86401)) ∧
    glk_simple_time_timestamp 8 (-2) 86400 = -172800 ∧ ¬ ((86400 : Int) ∣ -86401) :=
  ⟨C8_expand_simplify (-86400) 86400 (by decide) (by decide) (by decide) (by decide),
   C8_expand_simplify (-86401) 86400 (by decide) (by decide) (by decide) (by decide),
   by decide, by decide⟩

/-! ## C9: the simple time of a date refines the glktimeval of the date -/

/-- C9: on a host with 64-bit time, for every glkdate `D` and every factor
`> 0`, in each zone, when the host construction routine returns a 64-bit
timestamp: `glk_date_to_simple_time_*(D, factor)` equals `gli_simplify_time`
applied to the seconds decoded (`low_sec + (high_sec << 32)`) from the
glktimeval that `glk_date_to_time_*(D)` produces. -/
theorem C9_simple_time_of_date (h : Host) (D : glkdate_t) (f : Int) (tm : struct_tm)
    (h64 : h.sizeof_time_t = 8) (hf : 0 < f) :
    (is_int64 (h.timegm { (gli_date_to_tm D tm).1 with tm_isdst := 0 }) →
      glk_date_to_simple_time_utc h D f tm
        = gli_simplify_time 8
            (glk_time_to_date_timestamp 8 (glk_date_to_time_utc h D tm)) f) ∧
    (is_int64 (h.mktime { (gli_date_to_tm D tm).1 with tm_isdst := -1 }) →
      glk_date_to_simple_time_local h D f tm
        = gli_simplify_time 8
            (glk_time_to_date_timestamp 8 (glk_date_to_time_local h D tm)) f) := by
  have hf0 : f ≠ 0 := by omega
  constructor
  · intro hts
    unfold glk_date_to_simple_time_utc glk_date_to_time_utc
    simp only [h64, if_neg hf0, timestamp_split_join _ _ hts]
  · intro hts
    unfold glk_date_to_simple_time_local glk_date_to_time_local
    simp only [h64, if_neg hf0, timestamp_split_join _ _ hts]

/-- C9 on `epoch_minute_host` for `1970-01-01 00:00:59` and factor `60`, in
both zones: the simple time is `0`. -/
theorem C9_simple_time_of_date_witness :
    (glk_date_to_simple_time_utc epoch_minute_host ⟨1970, 1, 1, 4, 0, 0, 59, 0⟩ 60 tm_zero
        = gli_simplify_time 8 (glk_time_to_date_timestamp 8
            (glk_date_to_time_utc epoch_minute_host ⟨1970, 1, 1, 4, 0, 0, 59, 0⟩ tm_zero)) 60 ∧
      glk_date_to_simple_time_utc epoch_minute_host ⟨1970, 1, 1, 4, 0, 0, 59, 0⟩ 60 tm_zero
        = some 0) ∧
    glk_date_to_simple_time_local epoch_minute_host ⟨1970, 1, 1, 4, 0, 0, 59, 0⟩ 60 tm_zero
        = gli_simplify_time 8 (glk_time_to_date_timestamp 8
            (glk_date_to_time_local epoch_minute_host ⟨1970, 1, 1, 4, 0, 0, 59, 0⟩ tm_zero)) 60 :=
  ⟨⟨(C9_simple_time_of_date epoch_minute_host ⟨1970, 1, 1, 4, 0, 0, 59, 0⟩ 60 tm_zero rfl
        (by decide)).1 (by decide), by decide⟩,
   (C9_simple_time_of_date epoch_minute_host ⟨1970, 1, 1, 4, 0, 0, 59, 0⟩ 60 tm_zero rfl
        (by decide)).2 (by decide)⟩

/-! ## C10: a simple time is expanded exactly and has no microseconds -/

/-- C10: on a host with 64-bit time, for every signed 32-bit simple value and
every unsigned 32-bit factor, `glk_simple_time_to_date_utc` and
`glk_simple_time_to_date_local` pass the host breakdown routine exactly the
product `simple * factor` and return a glkdate whose microsecond is `0`. -/
theorem C10_simple_time_to_date (h : Host) (s f : Int) (date : glkdate_t)
    (h64 : h.sizeof_time_t = 8) (hs : is_glsi32 s) (hf : is_glui32 f) :
    glk_simple_time_timestamp h.sizeof_time_t s f = s * f ∧
    glk_simple_time_to_date_utc h s f date
      = { gli_date_from_tm date (h.gmtime_r (s * f)) with microsec := 0 } ∧
    glk_simple_time_to_date_local h s f date
      = { gli_date_from_tm date (h.localtime_r (s * f)) with microsec := 0 } ∧
    (glk_simple_time_to_date_utc h s f date).microsec = 0 ∧
    (glk_simple_time_to_date_local h s f date).microsec = 0 := by
  have e := glk_simple_time_timestamp_eight s f hs hf
  unfold glk_simple_time_to_date_utc glk_simple_time_to_date_local
  simp only [h64, e, and_self]

/-- C10 at the extreme operands `simple = -2^31`, `factor = 2^32 - 1`: the
timestamp is `-9223372034707292160`, and on `epoch_minute_host` the date of
simple time `1` with factor `30` is `1970-01-01 00:00:30.000000`. -/
theorem C10_simple_time_to_date_witness :
    (is_glsi32 (-2147483648) ∧ is_glui32 4294967295) ∧
    glk_simple_time_timestamp 8 (-2147483648) 4294967295 = -9223372034707292160 ∧
    glk_simple_time_to_date_utc epoch_minute_host 1 30 ⟨0, 0, 0, 0, 0, 0, 0, 77⟩
      = ⟨1970, 1, 1, 4, 0, 0, 30, 0⟩ :=
  ⟨by decide,
   (C10_simple_time_to_date epoch_minute_host (-2147483648) 4294967295
      ⟨0, 0, 0, 0, 0, 0, 0, 77⟩ rfl (by decide) (by decide)).1,
   (C10_simple_time_to_date epoch_minute_host 1 30
      ⟨0, 0, 0, 0, 0, 0, 0, 77⟩ rfl (by decide) (by decide)).2.1⟩

/-! ## C11: a glktimeval is converted by copying the host breakdown -/

/-- C11, as stated, fails: the host record of second `67768036191676799` has
`tm_year = INT_MAX`, so `1900 + tm_year` is `2147485547`, which the `glsi32`
field `year` cannot hold; the year stored is not `1900 + tm_year`. -/
theorem C11_counterexample :
    glk_time_to_date_timestamp 8 ⟨15778475, 2085923199, 0⟩ = 67768036191676799 ∧
    (year_limit_host.gmtime_r 67768036191676799).tm_year = 2147483647 ∧
    ¬ is_glsi32 (1900 + (year_limit_host.gmtime_r 67768036191676799).tm_year) ∧
    (glk_time_to_date_utc year_limit_host ⟨15778475, 2085923199, 0⟩
        ⟨0, 0, 0, 0, 0, 0, 0, 0⟩).year = -2147481749 ∧
    (glk_time_to_date_utc year_limit_host ⟨15778475, 2085923199, 0⟩
        ⟨0, 0, 0, 0, 0, 0, 0, 0⟩).year
      ≠ 1900 + (year_limit_host.gmtime_r 67768036191676799).tm_year := by
  decide

/-- C11 (amended): for every glktimeval `t` and every host, in each zone, when
the host record `tm` returned for the seconds decoded from `t` has
`1900 + tm_year` and `1 + tm_mon` within a signed 32-bit integer,
`glk_time_to_date_*` returns year `1900 + tm_year`, month `1 + tm_mon`,
day, weekday, hour, minute, second equal to `tm_mday`, `tm_wday`, `tm_hour`,
`tm_min`, `tm_sec`, and the microsecond of `t` unchanged. -/
theorem C11_time_to_date_copies (h : Host) (t : glktimeval_t) (date : glkdate_t) :
    (tm_offsets_fit (h.gmtime_r (glk_time_to_date_timestamp h.sizeof_time_t t)) →
      glk_time_to_date_utc h t date
        = ⟨1900 + (h.gmtime_r (glk_time_to_date_timestamp h.sizeof_time_t t)).tm_year,
           1 + (h.gmtime_r (glk_time_to_date_timestamp h.sizeof_time_t t)).tm_mon,
           (h.gmtime_r (glk_time_to_date_timestamp h.sizeof_time_t t)).tm_mday,
           (h.gmtime_r (glk_time_to_date_timestamp h.sizeof_time_t t)).tm_wday,
           (h.gmtime_r (glk_time_to_date_timestamp h.sizeof_time_t t)).tm_hour,
           (h.gmtime_r (glk_time_to_date_timestamp h.sizeof_time_t t)).tm_min,
           (h.gmtime_r (glk_time_to_date_timestamp h.sizeof_time_t t)).tm_sec,
           t.microsec⟩) ∧
    (tm_offsets_fit (h.localtime_r (glk_time_to_date_timestamp h.sizeof_time_t t)) →
      glk_time_to_date_local h t date
        = ⟨1900 + (h.localtime_r (glk_time_to_date_timestamp h.sizeof_time_t t)).tm_year,
           1 + (h.localtime_r (glk_time_to_date_timestamp h.sizeof_time_t t)).tm_mon,
           (h.localtime_r (glk_time_to_date_timestamp h.sizeof_time_t t)).tm_mday,
           (h.localtime_r (glk_time_to_date_timestamp h.sizeof_time_t t)).tm_wday,
           (h.localtime_r (glk_time_to_date_timestamp h.sizeof_time_t t)).tm_hour,
           (h.localtime_r (glk_time_to_date_timestamp h.sizeof_time_t t)).tm_min,
           (h.localtime_r (glk_time_to_date_timestamp h.sizeof_time_t t)).tm_sec,
           t.microsec⟩) := by
  constructor
  · intro hfit
    simp only [glk_time_to_date_utc]
    generalize h.gmtime_r (glk_time_to_date_timestamp h.sizeof_time_t t) = tm at hfit ⊢
    obtain ⟨hy, hm⟩ := hfit
    have ey : to_glsi32 (1900 + tm.tm_year) = 1900 + tm.tm_year :=
      to_glsi32_id ⟨by omega, by omega⟩
    have em : to_glsi32 (1 + tm.tm_mon) = 1 + tm.tm_mon :=
      to_glsi32_id ⟨by omega, by omega⟩
    unfold gli_date_from_tm
    simp only [ey, em]
  · intro hfit
    simp only [glk_time_to_date_local]
    generalize h.localtime_r (glk_time_to_date_timestamp h.sizeof_time_t t) = tm at hfit ⊢
    obtain ⟨hy, hm⟩ := hfit
    have ey : to_glsi32 (1900 + tm.tm_year) = 1900 + tm.tm_year :=
      to_glsi32_id ⟨by omega, by omega⟩
    have em : to_glsi32 (1 + tm.tm_mon) = 1 + tm.tm_mon :=
      to_glsi32_id ⟨by omega, by omega⟩
    unfold gli_date_from_tm
    simp only [ey, em]

/-- C11 at the Unix epoch: the glktimeval `{0, 0, 0}` with the host record
`tm_year 70, tm_mon 0, tm_mday 1, tm_wday 4`, rest `0`, yields
`{1970, 1, 1, weekday 4, 0, 0, 0, 0}` in both zones. -/
theorem C11_time_to_date_copies_witness :
    epoch_minute_host.gmtime_r 0 = ⟨0, 0, 0, 1, 0, 70, 4, 0, 0⟩ ∧
    glk_time_to_date_utc epoch_minute_host ⟨0, 0, 0⟩ ⟨9, 9, 9, 9, 9, 9, 9, 9⟩
      = ⟨1970, 1, 1, 4, 0, 0, 0, 0⟩ ∧
    glk_time_to_date_local epoch_minute_host ⟨0, 0, 0⟩ ⟨9, 9, 9, 9, 9, 9, 9, 9⟩
      = ⟨1970, 1, 1, 4, 0, 0, 0, 0⟩ :=
  ⟨by decide,
   (C11_time_to_date_copies epoch_minute_host ⟨0, 0, 0⟩ ⟨9, 9, 9, 9, 9, 9, 9, 9⟩).1
      (by decide),
   (C11_time_to_date_copies epoch_minute_host ⟨0, 0, 0⟩ ⟨9, 9, 9, 9, 9, 9, 9, 9⟩).2
      (by decide)⟩

/-! ## C12: which fields of a returned glkdate are normalized -/

/-- C12, as stated, fails: the microsecond of the glktimeval is copied
unchanged, so `{0, 0, -1}` and `{0, 0, 1_000_000}`, whose host record has
`tm_mon = 0` and `tm_wday = 4`, give dates with microsecond `-1` and
`1_000_000`. -/
theorem C12_counterexample :
    (is_glsi32 (-1) ∧ is_glsi32 1000000) ∧
    (epoch_minute_host.gmtime_r (glk_time_to_date_timestamp 8 ⟨0, 0, -1⟩)).tm_mon = 0 ∧
    (epoch_minute_host.gmtime_r (glk_time_to_date_timestamp 8 ⟨0, 0, -1⟩)).tm_wday = 4 ∧
    (glk_time_to_date_utc epoch_minute_host ⟨0, 0, -1⟩ ⟨0, 0, 0, 0, 0, 0, 0, 0⟩).microsec
      = -1 ∧
    (glk_time_to_date_local epoch_minute_host ⟨0, 0, 1000000⟩
      ⟨0, 0, 0, 0, 0, 0, 0, 0⟩).microsec = 1000000 := by
  decide

/-- C12 (amended): for every glktimeval `t` and every host, in each zone, when
the host record has `tm_mon` in `0..11` and `tm_wday` in `0..6`, the date
returned by `glk_time_to_date_*` has month in `1..12` and weekday in `0..6`;
its microsecond is that of `t`, so it lies in `0..999_999` exactly when the
microsecond of `t` does. -/
theorem C12_date_normalized (h : Host) (t : glktimeval_t) (date : glkdate_t) :
    ((0 ≤ (h.gmtime_r (glk_time_to_date_timestamp h.sizeof_time_t t)).tm_mon ∧
        (h.gmtime_r (glk_time_to_date_timestamp h.sizeof_time_t t)).tm_mon ≤ 11) →
      (0 ≤ (h.gmtime_r (glk_time_to_date_timestamp h.sizeof_time_t t)).tm_wday ∧
        (h.gmtime_r (glk_time_to_date_timestamp h.sizeof_time_t t)).tm_wday ≤ 6) →
      (1 ≤ (glk_time_to_date_utc h t date).month ∧
        (glk_time_to_date_utc h t date).month ≤ 12) ∧
      (0 ≤ (glk_time_to_date_utc h t date).weekday ∧
        (glk_time_to_date_utc h t date).weekday ≤ 6) ∧
      (glk_time_to_date_utc h t date).microsec = t.microsec ∧
      ((0 ≤ (glk_time_to_date_utc h t date).microsec ∧
          (glk_time_to_date_utc h t date).microsec < 1000000)
        ↔ (0 ≤ t.microsec ∧ t.microsec < 1000000))) ∧
    ((0 ≤ (h.localtime_r (glk_time_to_date_timestamp h.sizeof_time_t t)).tm_mon ∧
        (h.localtime_r (glk_time_to_date_timestamp h.sizeof_time_t t)).tm_mon ≤ 11) →
      (0 ≤ (h.localtime_r (glk_time_to_date_timestamp h.sizeof_time_t t)).tm_wday ∧
        (h.localtime_r (glk_time_to_date_timestamp h.sizeof_time_t t)).tm_wday ≤ 6) →
      (1 ≤ (glk_time_to_date_local h t date).month ∧
        (glk_time_to_date_local h t date).month ≤ 12) ∧
      (0 ≤ (glk_time_to_date_local h t date).weekday ∧
        (glk_time_to_date_local h t date).weekday ≤ 6) ∧
      (glk_time_to_date_local h t date).microsec = t.microsec ∧
      ((0 ≤ (glk_time_to_date_local h t date).microsec ∧
          (glk_time_to_date_local h t date).microsec < 1000000)
        ↔ (0 ≤ t.microsec ∧ t.microsec < 1000000))) := by
  constructor
  · intro hmon hwday
    simp only [glk_time_to_date_utc]
    generalize h.gmtime_r (glk_time_to_date_timestamp h.sizeof_time_t t) = tm at hmon hwday ⊢
    have em : to_glsi32 (1 + tm.tm_mon) = 1 + tm.tm_mon :=
      to_glsi32_id ⟨by omega, by omega⟩
    unfold gli_date_from_tm
    simp only [em]
    exact ⟨⟨by omega, by omega⟩, hwday, trivial, trivial⟩
  · intro hmon hwday
    simp only [glk_time_to_date_local]
    generalize h.localtime_r (glk_time_to_date_timestamp h.sizeof_time_t t) = tm
      at hmon hwday ⊢
    have em : to_glsi32 (1 + tm.tm_mon) = 1 + tm.tm_mon :=
      to_glsi32_id ⟨by omega, by omega⟩
    unfold gli_date_from_tm
    simp only [em]
    exact ⟨⟨by omega, by omega⟩, hwday, trivial, trivial⟩

/-- C12 on `epoch_minute_host` at `{0, 30, 999_999}`: the date is
`1970-01-01 00:00:30.999999`, a Thursday. -/
theorem C12_date_normalized_witness :
    glk_time_to_date_utc epoch_minute_host ⟨0, 30, 999999⟩ ⟨0, 0, 0, 0, 0, 0, 0, 0⟩
      = ⟨1970, 1, 1, 4, 0, 0, 30, 999999⟩ ∧
    (1 ≤ (glk_time_to_date_utc epoch_minute_host ⟨0, 30, 999999⟩
        ⟨0, 0, 0, 0, 0, 0, 0, 0⟩).month ∧
      (glk_time_to_date_utc epoch_minute_host ⟨0, 30, 999999⟩
        ⟨0, 0, 0, 0, 0, 0, 0, 0⟩).month ≤ 12) ∧
    (0 ≤ (glk_time_to_date_local epoch_minute_host ⟨0, 30, 999999⟩
        ⟨0, 0, 0, 0, 0, 0, 0, 0⟩).weekday ∧
      (glk_time_to_date_local epoch_minute_host ⟨0, 30, 999999⟩
        ⟨0, 0, 0, 0, 0, 0, 0, 0⟩).weekday ≤ 6) :=
  ⟨by decide,
   ((C12_date_normalized epoch_minute_host ⟨0, 30, 999999⟩ ⟨0, 0, 0, 0, 0, 0, 0, 0⟩).1
      (by decide) (by decide)).1,
   ((C12_date_normalized epoch_minute_host ⟨0, 30, 999999⟩ ⟨0, 0, 0, 0, 0, 0, 0, 0⟩).2
      (by decide) (by decide)).2.1⟩

/-! ## C13: the weekday of the input date -/

/-- C13, as stated, fails: `gli_date_to_tm` copies the weekday into `tm_wday`,
so two dates that differ only in their weekday (`0` and `4`) give two
different tm structures. -/
theorem C13_counterexample :
    (gli_date_to_tm ⟨1970, 1, 1, 0, 0, 0, 0, 0⟩ tm_zero).1.tm_wday = 0 ∧
    (gli_date_to_tm ⟨1970, 1, 1, 4, 0, 0, 0, 0⟩ tm_zero).1.tm_wday = 4 ∧
    (gli_date_to_tm ⟨1970, 1, 1, 0, 0, 0, 0, 0⟩ tm_zero).1
      ≠ (gli_date_to_tm ⟨1970, 1, 1, 4, 0, 0, 0, 0⟩ tm_zero).1 := by
  decide

/-- C13 (amended): for two glkdates that differ only in their weekday, the tm
structures built by `gli_date_to_tm` differ only in `tm_wday`, which holds the
input weekday, and the normalized microseconds are the same; when the host
construction routine of a zone disregards `tm_wday`, `glk_date_to_time_*` and
`glk_date_to_simple_time_*` of that zone return the same result for both. -/
theorem C13_weekday_passed_on (h : Host) (D : glkdate_t) (w f : Int) (tm : struct_tm) :
    (gli_date_to_tm { D with weekday := w } tm).1
      = { (gli_date_to_tm D tm).1 with tm_wday := w } ∧
    (gli_date_to_tm { D with weekday := w } tm).2 = (gli_date_to_tm D tm).2 ∧
    ((∀ (r : struct_tm) (v : Int), h.timegm { r with tm_wday := v } = h.timegm r) →
      glk_date_to_time_utc h { D with weekday := w } tm = glk_date_to_time_utc h D tm ∧
      glk_date_to_simple_time_utc h { D with weekday := w } f tm
        = glk_date_to_simple_time_utc h D f tm) ∧
    ((∀ (r : struct_tm) (v : Int), h.mktime { r with tm_wday := v } = h.mktime r) →
      glk_date_to_time_local h { D with weekday := w } tm = glk_date_to_time_local h D tm ∧
      glk_date_to_simple_time_local h { D with weekday := w } f tm
        = glk_date_to_simple_time_local h D f tm) := by
  have e1 : (gli_date_to_tm { D with weekday := w } tm).1
      = { (gli_date_to_tm D tm).1 with tm_wday := w } := by
    unfold gli_date_to_tm
    by_cases h1 : D.microsec ≥ 1000000
    · simp only [if_pos h1]
    · by_cases h2 : D.microsec < 0
      · simp only [if_neg h1, if_pos h2]
      · simp only [if_neg h1, if_neg h2]
  have e2 : (gli_date_to_tm { D with weekday := w } tm).2 = (gli_date_to_tm D tm).2 := by
    unfold gli_date_to_tm
    by_cases h1 : D.microsec ≥ 1000000
    · simp only [if_pos h1]
    · by_cases h2 : D.microsec < 0
      · simp only [if_neg h1, if_pos h2]
      · simp only [if_neg h1, if_neg h2]
  refine ⟨e1, e2, ?_, ?_⟩
  · intro hign
    have k : h.timegm { (gli_date_to_tm { D with weekday := w } tm).1 with tm_isdst := 0 }
        = h.timegm { (gli_date_to_tm D tm).1 with tm_isdst := 0 } := by
      rw [e1]
      exact hign { (gli_date_to_tm D tm).1 with tm_isdst := 0 } w
    constructor
    · simp only [glk_date_to_time_utc, k, e2]
    · simp only [glk_date_to_simple_time_utc, k]
  · intro hign
    have k : h.mktime { (gli_date_to_tm { D with weekday := w } tm).1 with tm_isdst := -1 }
        = h.mktime { (gli_date_to_tm D tm).1 with tm_isdst := -1 } := by
      rw [e1]
      exact hign { (gli_date_to_tm D tm).1 with tm_isdst := -1 } w
    constructor
    · simp only [glk_date_to_time_local, k, e2]
    · simp only [glk_date_to_simple_time_local, k]

/-- C13 on `epoch_minute_host`, whose construction routines read `tm_sec`
only: `1970-01-01 00:00:42` given as a Sunday and given as a Thursday has the
same glktimeval and the same simple time. -/
theorem C13_weekday_passed_on_witness :
    glk_date_to_time_utc epoch_minute_host ⟨1970, 1, 1, 0, 0, 0, 42, 0⟩ tm_zero
      = glk_date_to_time_utc epoch_minute_host ⟨1970, 1, 1, 4, 0, 0, 42, 0⟩ tm_zero ∧
    glk_date_to_simple_time_local epoch_minute_host ⟨1970, 1, 1, 0, 0, 0, 42, 0⟩ 60 tm_zero
      = glk_date_to_simple_time_local epoch_minute_host ⟨1970, 1, 1, 4, 0, 0, 42, 0⟩ 60
          tm_zero :=
  ⟨((C13_weekday_passed_on epoch_minute_host ⟨1970, 1, 1, 4, 0, 0, 42, 0⟩ 0 60 tm_zero).2.2.1
      (fun _ _ => rfl)).1,
   ((C13_weekday_passed_on epoch_minute_host ⟨1970, 1, 1, 4, 0, 0, 42, 0⟩ 0 60 tm_zero).2.2.2
      (fun _ _ => rfl)).2⟩

/-! ## C14: failure of the clock read -/

/-- C14: when `gettimeofday` fails, `glk_current_time` stores the glktimeval
`{0, 0, 0}`, whatever the width of `time_t` (so on the 32-bit and on the
64-bit path of `gli_timestamp_to_time`). -/
theorem C14_clock_failure (h : Host) (hfail : h.gettimeofday.1 ≠ 0) :
    glk_current_time h = ⟨0, 0, 0⟩ := by
  unfold glk_current_time
  simp only [if_pos hfail]
  exact gli_timestamp_to_time_zero h.sizeof_time_t

/-- C14 on a host with 32-bit time and on a host with 64-bit time whose
`gettimeofday` returns `-1`. -/
theorem C14_clock_failure_witness :
    glk_current_time ⟨4, (-1, ⟨1234, 5678⟩), epoch_minute_host.gmtime_r,
        epoch_minute_host.localtime_r, epoch_minute_host.timegm, epoch_minute_host.mktime⟩
      = ⟨0, 0, 0⟩ ∧
    glk_current_time ⟨8, (-1, ⟨1234, 5678⟩), epoch_minute_host.gmtime_r,
        epoch_minute_host.localtime_r, epoch_minute_host.timegm, epoch_minute_host.mktime⟩
      = ⟨0, 0, 0⟩ :=
  ⟨C14_clock_failure ⟨4, (-1, ⟨1234, 5678⟩), epoch_minute_host.gmtime_r,
      epoch_minute_host.localtime_r, epoch_minute_host.timegm, epoch_minute_host.mktime⟩
      (by decide),
   C14_clock_failure ⟨8, (-1, ⟨1234, 5678⟩), epoch_minute_host.gmtime_r,
      epoch_minute_host.localtime_r, epoch_minute_host.timegm, epoch_minute_host.mktime⟩
      (by decide)⟩

/-! ## C15: the host with 32-bit time -/

/-- C15: on a host with 32-bit time, for every signed 32-bit timestamp `ts`,
`gli_timestamp_to_time` stores `low_sec = ts mod 2^32` and `high_sec = 0` if
`ts >= 0`, else `-1`; this is the glktimeval the 64-bit branch builds for
`ts`; and the timestamp `glk_time_to_date_*` rebuilds from `low_sec` alone,
which is what it passes to the host, is `ts`. -/
theorem C15_narrow_time (h : Host) (ts us : Int) (date : glkdate_t)
    (h32 : h.sizeof_time_t = 4) (hts : is_glsi32 ts) :
    (gli_timestamp_to_time 4 ts us).low_sec = Int.fmod ts 4294967296 ∧
    (gli_timestamp_to_time 4 ts us).high_sec = (if ts ≥ 0 then 0 else -1) ∧
    gli_timestamp_to_time 4 ts us = gli_timestamp_to_time 8 ts us ∧
    glk_time_to_date_timestamp 4 (gli_timestamp_to_time 4 ts us) = ts ∧
    glk_time_to_date_utc h (gli_timestamp_to_time 4 ts us) date
      = { gli_date_from_tm date (h.gmtime_r ts) with microsec := us } ∧
    glk_time_to_date_local h (gli_timestamp_to_time 4 ts us) date
      = { gli_date_from_tm date (h.localtime_r ts) with microsec := us } := by
  have h4 : (4 : Nat) ≤ 4 := by decide
  have e4 : gli_timestamp_to_time 4 ts us
      = ⟨if ts ≥ 0 then 0 else -1, ts % 4294967296, us⟩ := by
    unfold gli_timestamp_to_time to_glui32
    rw [if_pos h4]
  have hts64 : is_int64 ts := by
    unfold is_glsi32 at hts
    unfold is_int64
    omega
  have e8 := gli_timestamp_to_time_eight ts us hts64
  have hq : ts / 4294967296 = (if ts ≥ 0 then 0 else -1) := by
    unfold is_glsi32 at hts
    by_cases h0 : ts ≥ 0
    · rw [if_pos h0]; omega
    · rw [if_neg h0]; omega
  have ed : glk_time_to_date_timestamp 4 (gli_timestamp_to_time 4 ts us) = ts := by
    rw [glk_time_to_date_timestamp_four, e4]
    unfold is_glsi32 at hts
    unfold to_glsi32
    simp only
    omega
  refine ⟨?_, ?_, ?_, ed, ?_, ?_⟩
  · rw [e4, Int.fmod_eq_emod _ (by decide)]
  · rw [e4]
  · rw [e4, e8, hq]
  · simp only [glk_time_to_date_utc, h32, ed]
    rw [e4]
  · simp only [glk_time_to_date_local, h32, ed]
    rw [e4]

/-- C15 at `ts = -1` and at `ts = INT32_MIN`: the words are
`(-1, 4294967295)` and `(-1, 2147483648)`, and the rebuilt timestamps are
`-1` and `-2147483648`. -/
theorem C15_narrow_time_witness :
    (is_glsi32 (-1) ∧ is_glsi32 (-2147483648)) ∧
    gli_timestamp_to_time 4 (-1) 0 = ⟨-1, 4294967295, 0⟩ ∧
    glk_time_to_date_timestamp 4 (gli_timestamp_to_time 4 (-1) 0) = -1 ∧
    glk_time_to_date_timestamp 4 (gli_timestamp_to_time 4 (-2147483648) 0) = -2147483648 :=
  ⟨by decide, by decide,
   (C15_narrow_time ⟨4, (0, ⟨0, 0⟩), epoch_minute_host.gmtime_r,
      epoch_minute_host.localtime_r, epoch_minute_host.timegm, epoch_minute_host.mktime⟩
      (-1) 0 ⟨0, 0, 0, 0, 0, 0, 0, 0⟩ rfl (by decide)).2.2.2.1,
   (C15_narrow_time ⟨4, (0, ⟨0, 0⟩), epoch_minute_host.gmtime_r,
      epoch_minute_host.localtime_r, epoch_minute_host.timegm, epoch_minute_host.mktime⟩
      (-2147483648) 0 ⟨0, 0, 0, 0, 0, 0, 0, 0⟩ rfl (by decide)).2.2.2.1⟩

/-! ## C16: simplifying an expanded simple time -/

/-- C16: on a host with 64-bit time, for every signed 32-bit `s` and every
factor `f` in `1..2^32-1`, `gli_simplify_time(s * f, f) = s`, where `s * f` is
the timestamp `glk_simple_time_to_date_*` computes. -/
theorem C16_simplify_expand (s f : Int) (hs : is_glsi32 s) (h1 : 1 ≤ f)
    (h2 : f ≤ 4294967295) :
    gli_simplify_time 8 (glk_simple_time_timestamp 8 s f) f = some s := by
  have hf : is_glui32 f := ⟨by omega, h2⟩
  have hf0 : f ≠ 0 := by omega
  rw [glk_simple_time_timestamp_eight s f hs hf,
    gli_simplify_time_eight (s * f) f (mul_is_int64 s f hs hf) h1 h2,
    Int.mul_ediv_cancel s hf0, to_glsi32_id hs]

/-- C16 at negative simple times, which take the branch
`-1 - ((-1 - timestamp) / f)`: `s = -3` with `f = 86400`, and the extreme
`s = -2^31` with `f = 2^32 - 1`. -/
theorem C16_simplify_expand_witness :
    glk_simple_time_timestamp 8 (-3) 86400 = -259200 ∧
    gli_simplify_time 8 (glk_simple_time_timestamp 8 (-3) 86400) 86400 = some (-3) ∧
    gli_simplify_time 8 (glk_simple_time_timestamp 8 (-2147483648) 4294967295) 4294967295
      = some (-2147483648) :=
  ⟨by decide,
   C16_simplify_expand (-3) 86400 (by decide) (by decide) (by decide),
   C16_simplify_expand (-2147483648) 4294967295 (by decide) (by decide) (by decide)⟩

end Cgdate
